import Mathlib

/-!
Verification development for the ai-audio-kb repository.

Part 1 embeds the configuration parsing helpers of
src/backend/src/server.js (the config/index.js module) and the
DatabaseManager of the MongoDB configuration module.

Part 2 models the Hybrid Retrieval Engine described by the
specification (RRF merger, circuit breaker, query orchestrator,
rerank stage).  That engine is not present under src/ — the repository
holds only a roadmap sketch (docs/IMPLEMENTATION_ROADMAP.md) and the
analogous environment defaults in the server configuration — so those
definitions are modelled from the specification text, as marked in
their doc comments.

JavaScript numbers that may be NaN are modelled as `Option`:
`none` stands for NaN, `some x` for the finite number `x`.
Integers are modelled by `Int` and floats by `ℚ`; the special values
Infinity and -Infinity do not occur at any configuration call site and
are outside the model.
-/

/-- Predicate for the whitespace characters skipped by the JavaScript
number parsers. -/
def isSpaceCh (c : Char) : Bool :=
  c == ' ' || c == '\t' || c == '\n' || c == '\r'

/-- Predicate for decimal digit characters. -/
def isDigitCh (c : Char) : Bool :=
  '0' ≤ c && c ≤ '9'

/-- Value of a list of decimal digit characters, most significant first. -/
def digitsToNat (ds : List Char) : Nat :=
  ds.foldl (fun a c => 10 * a + (c.toNat - 48)) 0

/-- Model of JavaScript Number.parseInt(s, 10): skip leading whitespace,
read an optional sign, then the longest prefix of decimal digits;
the result is NaN (`none`) when that prefix is empty, and trailing
characters are ignored. -/
def jsParseInt (s : String) : Option Int :=
  let cs := s.data.dropWhile isSpaceCh
  let signed : Bool × List Char :=
    match cs with
    | '-' :: rest => (true, rest)
    | '+' :: rest => (false, rest)
    | _ => (false, cs)
  let ds := signed.2.takeWhile isDigitCh
  if ds.isEmpty then none
  else some (if signed.1 then -(digitsToNat ds : Int) else (digitsToNat ds : Int))

/-- Exponent part of JavaScript Number.parseFloat: optional sign and
digits after an e or E; an empty digit string contributes exponent 0
(parseFloat stops before a dangling exponent marker). -/
def readExponent (cs : List Char) : Int :=
  let signed : Bool × List Char :=
    match cs with
    | '-' :: rest => (true, rest)
    | '+' :: rest => (false, rest)
    | _ => (false, cs)
  let ds := signed.2.takeWhile isDigitCh
  if ds.isEmpty then 0
  else if signed.1 then -(digitsToNat ds : Int) else (digitsToNat ds : Int)

/-- Model of JavaScript Number.parseFloat(s): skip leading whitespace,
read an optional sign, integer digits, an optional fractional part and
an optional decimal exponent; the result is NaN (`none`) when the
mantissa holds no digit.  The literal Infinity is outside the model. -/
def jsParseFloat (s : String) : Option ℚ :=
  let cs := s.data.dropWhile isSpaceCh
  let signed : Bool × List Char :=
    match cs with
    | '-' :: rest => (true, rest)
    | '+' :: rest => (false, rest)
    | _ => (false, cs)
  let intDs := signed.2.takeWhile isDigitCh
  let cs2 := signed.2.drop intDs.length
  let fracSplit : List Char × List Char :=
    match cs2 with
    | '.' :: rest => (rest.takeWhile isDigitCh, rest.drop (rest.takeWhile isDigitCh).length)
    | _ => ([], cs2)
  if intDs.isEmpty && fracSplit.1.isEmpty then none
  else
    let mant : ℚ :=
      (digitsToNat intDs : ℚ) + (digitsToNat fracSplit.1 : ℚ) / ((10 : ℚ) ^ fracSplit.1.length)
    let expo : Int :=
      match fracSplit.2 with
      | 'e' :: rest => readExponent rest
      | 'E' :: rest => readExponent rest
      | _ => 0
    let mag : ℚ := mant * (10 : ℚ) ^ expo
    some (if signed.1 then -mag else mag)

/-- Embedding of function parseInt of src/backend/src/server.js
(config module, lines 355-359): return the default when the
environment value is undefined (`none`), parse it otherwise and
substitute the default for a NaN parse result.  At every call site the
default is a numeric literal, so it is modelled as an `Int`; the
codomain keeps the NaN alternative (`none`) of JavaScript numbers. -/
def parseIntCfg (value : Option String) (defaultValue : Int) : Option Int :=
  match value with
  | none => some defaultValue
  | some s =>
    match jsParseInt s with
    | none => some defaultValue
    | some n => some n

/-- Embedding of function parseFloat of src/backend/src/server.js
(config module, lines 364-368), analogous to `parseIntCfg`. -/
def parseFloatCfg (value : Option String) (defaultValue : ℚ) : Option ℚ :=
  match value with
  | none => some defaultValue
  | some s =>
    match jsParseFloat s with
    | none => some defaultValue
    | some q => some q

section RatEval

attribute [local semireducible] Rat.add Rat.mul Rat.inv Rat.sub

example : jsParseInt "  42abc" = some 42 := by decide
example : jsParseInt "-7" = some (-7) := by decide
example : jsParseInt "x" = none := by decide
example : parseIntCfg (some "3000") 20 = some 3000 := by decide
example : parseIntCfg none 20 = some 20 := by decide
example : parseIntCfg (some "zz") 20 = some 20 := by decide
example : jsParseFloat "0.6" = some (6/10) := by decide
example : jsParseFloat "1.5e2" = some 150 := by decide
example : jsParseFloat "." = none := by decide

end RatEval

/-!
Embedding of the DatabaseManager class of the MongoDB configuration
module (src/unnamed/part_000).  The manager state holds the fields set
in the constructor; the opaque MongoDB client and database handles are
modelled as strings.
-/

/-- State of a DatabaseManager instance: the fields initialised in the
constructor of src/unnamed/part_000.  `client` and `db` model the
MongoClient and Db handles (`none` is the initial null). -/
structure DBState where
  client : Option String
  db : Option String
  isConnected : Bool
  isConnecting : Bool
  reconnectAttempts : Nat
  maxReconnectAttempts : Nat
  reconnectDelay : Nat
deriving DecidableEq, Repr

/-- Initial DatabaseManager state, from the constructor: null handles,
not connected, zero reconnect attempts, max 5 attempts, 5000 ms delay. -/
def DBState.init : DBState :=
  { client := none, db := none, isConnected := false, isConnecting := false,
    reconnectAttempts := 0, maxReconnectAttempts := 5, reconnectDelay := 5000 }

/-- Embedding of DatabaseManager.getDatabase (src/unnamed/part_000,
lines 307-312): throw when not connected or the db handle is null,
return the handle otherwise.  The returned state is the state after
the call, which the method never mutates. -/
def DatabaseManager.getDatabase (s : DBState) : Except String String × DBState :=
  match s.isConnected, s.db with
  | true, some d => (Except.ok d, s)
  | _, _ => (Except.error "Database not connected. Call connect() first.", s)

/-- Embedding of DatabaseManager.getCollection (src/unnamed/part_000,
lines 317-320): obtain the database via getDatabase, then the named
collection handle, modelled as the pair of database handle and name. -/
def DatabaseManager.getCollection (s : DBState) (name : String) :
    Except String (String × String) × DBState :=
  match DatabaseManager.getDatabase s with
  | (Except.ok d, s1) => (Except.ok (d, name), s1)
  | (Except.error e, s1) => (Except.error e, s1)

/-- Result of a call to DatabaseManager.connect, as seen by the caller. -/
inductive ConnectOutcome
  /-- the returned promise resolves with the stored db handle (possibly null) -/
  | resolved (db : Option String)
  /-- a connection is already in progress: the call polls until the
  manager is connected and then resolves with its db handle -/
  | awaitExisting
  /-- the connection attempt failed below the retry limit: a retry is
  scheduled and the promise resolves with null -/
  | retryScheduled
  /-- the connection attempt failed at the retry limit: an error is thrown -/
  | thrown (msg : String)
deriving DecidableEq, Repr

/-- Embedding of DatabaseManager.connect (src/unnamed/part_000, lines
27-131).  The result of the underlying MongoDB connection attempt
(client connect, admin ping, collection initialisation) is supplied as
`attempt`: `Except.ok d` stands for a successful connection yielding
database handle `d`, `Except.error m` for any failure.  When the
manager is already connected the attempt is never initiated and the
stored handle is returned; when a connection is in progress the call
waits on it; otherwise the attempt runs and the state is updated as in
the source, including the retry bookkeeping of the catch block. -/
def DatabaseManager.connect (s : DBState) (attempt : Except String String) :
    ConnectOutcome × DBState :=
  if s.isConnected then
    (ConnectOutcome.resolved s.db, s)
  else if s.isConnecting then
    (ConnectOutcome.awaitExisting, s)
  else
    match attempt with
    | Except.ok d =>
      (ConnectOutcome.resolved (some d),
        { s with client := some "client", db := some d,
                 isConnected := true, isConnecting := false, reconnectAttempts := 0 })
    | Except.error m =>
      if s.reconnectAttempts < s.maxReconnectAttempts then
        (ConnectOutcome.retryScheduled,
          { s with isConnecting := false, isConnected := false,
                   reconnectAttempts := s.reconnectAttempts + 1 })
      else
        (ConnectOutcome.thrown
            ("Failed to connect to MongoDB after " ++
              toString s.maxReconnectAttempts ++ " attempts: " ++ m),
          { s with isConnecting := false, isConnected := false })

/-!
Model of the Hybrid Retrieval Engine of the specification.  The engine
itself (QueryOrchestrator, RRFMerger, CircuitBreaker, Reranker) is not
present under src/; the repository holds only the roadmap sketch of
HybridSearchService.search in docs/IMPLEMENTATION_ROADMAP.md and the
analogous environment defaults of the server configuration module.
The definitions below are therefore modelled from the specification
text, faithful to its words, as marked in their doc comments.
-/

/-- Modelled from the spec: the engine configuration recognised at
construction time (spec section 6), with the stated default for every
option; the engine configuration structure is missing from src/.  The
float-valued options carry their defaults as exact rationals. -/
structure SearchConfig where
  vectorWeight : ℚ := 6/10
  textWeight : ℚ := 4/10
  directLookupWeight : ℚ := 2/10
  k : Nat := 20
  fanoutMultiplier : Nat := 5
  minCandidatePool : Nat := 100
  rrfOffsetConstant : Nat := 60
  freshnessThresholdSeconds : Nat := 60
  rerankTopK : Nat := 20
  rerankingEnabled : Bool := true
  breakerFailureThreshold : Nat := 5
  breakerOpenTimeoutSeconds : Nat := 60
  breakerResetTimeoutSeconds : Nat := 30
  minRelevanceScore : ℚ := 7/10
deriving DecidableEq, Repr

/-- Phase of a per-upstream circuit breaker. -/
inductive BreakerPhase
  | CLOSED
  | OPEN
  | HALF_OPEN
deriving DecidableEq, Repr

/-- Modelled from the spec: the BreakerState record of the data model
(spec section 3); the CircuitBreaker implementation is missing from
src/.  Times are in the same unit as `resetTimeout`. -/
structure BreakerState where
  phase : BreakerPhase
  consecutiveFailures : Nat
  openedAt : Nat
  failureThreshold : Nat
  resetTimeout : Nat
deriving DecidableEq, Repr

/-- Modelled from the spec: admission decision of the circuit breaker
(spec section 4.5); the implementation is missing from src/.  While
OPEN and before the reset timeout has elapsed no call is attempted;
once it has elapsed the next call is attempted in HALF_OPEN; in any
other phase the call is attempted as-is. -/
def allowRequest (s : BreakerState) (now : Nat) : Bool × BreakerState :=
  match s.phase with
  | BreakerPhase.OPEN =>
    if s.openedAt + s.resetTimeout ≤ now then
      (true, { s with phase := BreakerPhase.HALF_OPEN })
    else
      (false, s)
  | _ => (true, s)

/-- Modelled from the spec: outcome accounting of the circuit breaker
(spec section 4.5); the implementation is missing from src/.  A
success while CLOSED resets the failure counter; a failure while
CLOSED increments it and trips the breaker to OPEN once it reaches the
failure threshold; a success while HALF_OPEN returns to CLOSED; a
failure while HALF_OPEN returns to OPEN and restarts the reset timer. -/
def recordOutcome (s : BreakerState) (success : Bool) (now : Nat) : BreakerState :=
  match s.phase, success with
  | BreakerPhase.CLOSED, true => { s with consecutiveFailures := 0 }
  | BreakerPhase.CLOSED, false =>
    if s.failureThreshold ≤ s.consecutiveFailures + 1 then
      { s with phase := BreakerPhase.OPEN,
               consecutiveFailures := s.consecutiveFailures + 1, openedAt := now }
    else
      { s with consecutiveFailures := s.consecutiveFailures + 1 }
  | BreakerPhase.HALF_OPEN, true =>
    { s with phase := BreakerPhase.CLOSED, consecutiveFailures := 0 }
  | BreakerPhase.HALF_OPEN, false =>
    { s with phase := BreakerPhase.OPEN, openedAt := now }
  | BreakerPhase.OPEN, _ => s

/-- Modelled from the spec: one protected call through the circuit
breaker at time `now` whose underlying upstream call, when attempted,
has outcome `success`.  The boolean of the result records whether the
call was attempted. -/
def breakerStep (s : BreakerState) (success : Bool) (now : Nat) : Bool × BreakerState :=
  match allowRequest s now with
  | (true, s1) => (true, recordOutcome s1 success now)
  | (false, s1) => (false, s1)

/-- Modelled from the spec: the FusedResult record of the data model
(spec section 3); the RRFMerger implementation is missing from src/.
Snippets and payload references do not take part in ranking and are
outside the model. -/
structure FusedResult where
  id : String
  fusedScore : ℚ
  contributingSources : List String
deriving DecidableEq, Repr

/-- Weight configured for a source name; a source absent from the
weight map has weight 0 (excluded without being removed). -/
def lookupWeight (weights : List (String × ℚ)) (src : String) : ℚ :=
  match weights.find? (fun p => p.1 == src) with
  | some p => p.2
  | none => 0

/-- Modelled from the spec: the Reciprocal Rank Fusion contribution of
a candidate at 1-based rank `r` in the list of source `src`, namely
the weight of the source divided by `r` plus the offset constant. -/
def rrfContribution (weights : List (String × ℚ)) (offset : Nat) (src : String) (r : Nat) : ℚ :=
  lookupWeight weights src / ((r : ℚ) + (offset : ℚ))

/-- Sources in which candidate `cid` appears, paired with its 1-based
rank there.  Each input list is a ranked candidate list tagged with
its source name. -/
def occurrences (lists : List (String × List String)) (cid : String) : List (String × Nat) :=
  lists.filterMap (fun sl =>
    match sl.2.findIdx? (fun x => x == cid) with
    | some i => some (sl.1, i + 1)
    | none => none)

/-- Modelled from the spec: the fused score of a candidate is the sum
of its RRF contributions over all sources in which it appears. -/
def fusedScoreOf (lists : List (String × List String)) (weights : List (String × ℚ))
    (offset : Nat) (cid : String) : ℚ :=
  ((occurrences lists cid).map (fun sr => rrfContribution weights offset sr.1 sr.2)).sum

/-- The fused result of one candidate identifier. -/
def mkFused (lists : List (String × List String)) (weights : List (String × ℚ))
    (offset : Nat) (cid : String) : FusedResult :=
  { id := cid,
    fusedScore := fusedScoreOf lists weights offset cid,
    contributingSources := (occurrences lists cid).map Prod.fst }

/-- Candidate identifiers appearing in any input list, each once. -/
def allIds (lists : List (String × List String)) : List String :=
  ((lists.map Prod.snd).flatten).dedup

/-- Number of sources contributing to a fused result. -/
def nSources (f : FusedResult) : Nat := f.contributingSources.length

/-- Modelled from the spec: the output order of the merger, being
descending fused score, ties broken by presence in more sources, then
by lexicographically smaller identifier. -/
def fusedBefore (a b : FusedResult) : Prop :=
  b.fusedScore < a.fusedScore ∨
    (a.fusedScore = b.fusedScore ∧
      (nSources b < nSources a ∨ (nSources a = nSources b ∧ a.id ≤ b.id)))

instance : DecidableRel fusedBefore := fun a b => by
  unfold fusedBefore
  infer_instance

instance : IsTotal FusedResult fusedBefore := by
  constructor
  intro a b
  rcases lt_trichotomy a.fusedScore b.fusedScore with h | h | h
  · exact Or.inr (Or.inl h)
  · rcases lt_trichotomy (nSources a) (nSources b) with h2 | h2 | h2
    · exact Or.inr (Or.inr ⟨h.symm, Or.inl h2⟩)
    · rcases le_total a.id b.id with h3 | h3
      · exact Or.inl (Or.inr ⟨h, Or.inr ⟨h2, h3⟩⟩)
      · exact Or.inr (Or.inr ⟨h.symm, Or.inr ⟨h2.symm, h3⟩⟩)
    · exact Or.inl (Or.inr ⟨h, Or.inl h2⟩)
  · exact Or.inl (Or.inl h)

instance : IsTrans FusedResult fusedBefore := by
  constructor
  intro a b c hab hbc
  rcases hab with hab | ⟨habE, habT⟩
  · rcases hbc with hbc | ⟨hbcE, hbcT⟩
    · exact Or.inl (lt_trans hbc hab)
    · exact Or.inl (by rw [← hbcE]; exact hab)
  · rcases hbc with hbc | ⟨hbcE, hbcT⟩
    · exact Or.inl (by rw [habE]; exact hbc)
    · refine Or.inr ⟨habE.trans hbcE, ?_⟩
      rcases habT with habT | ⟨habN, habI⟩
      · rcases hbcT with hbcT | ⟨hbcN, hbcI⟩
        · exact Or.inl (lt_trans hbcT habT)
        · exact Or.inl (by omega)
      · rcases hbcT with hbcT | ⟨hbcN, hbcI⟩
        · exact Or.inl (by omega)
        · exact Or.inr ⟨by omega, le_trans habI hbcI⟩

/-- Modelled from the spec: RRFMerger.merge (spec section 4.2); the
implementation is missing from src/.  Every candidate of the input
lists becomes one fused result scored by its summed RRF contributions,
and the output is sorted by descending fused score with the stated tie
break.  Truncation to the requested pool size is applied by the
orchestrator, not here. -/
def merge (lists : List (String × List String)) (weights : List (String × ℚ))
    (offset : Nat) : List FusedResult :=
  List.insertionSort fusedBefore ((allIds lists).map (mkFused lists weights offset))

/-- Errors of the query orchestrator taxonomy that fail a query. -/
inductive SearchError
  | InvalidQuery
  | UpstreamUnavailable
deriving DecidableEq, Repr

/-- Modelled from the spec: what one configured CandidateSource
delivered for a query.  `none` stands for a degraded source — it
failed, timed out, or its breaker was OPEN — which contributes an
empty list; `some l` is the ranked candidate list it returned. -/
structure SourceReturn where
  name : String
  result : Option (List String)
deriving DecidableEq, Repr

/-- Modelled from the spec: conditions of the rerank stage at query
time — breaker phase of the reranking upstream, the per-query feature
flag, the skip-rerank time budget, and the outcome of the reranking
call when one is made (`none` is a failure mid-call, `some order` the
identifier order the reranking service scored best-first). -/
structure RerankEnv where
  breakerOpen : Bool
  flagDisabled : Bool
  overBudget : Bool
  callResult : Option (List String)
deriving DecidableEq, Repr

/-- Modelled from the spec: the SearchResponse exposed to callers
(spec section 6). -/
structure SearchResponse where
  results : List FusedResult
  degradedSources : List String
  rerankApplied : Bool
deriving DecidableEq, Repr

/-- Modelled from the spec: a SearchQuery (spec section 3); filters
and per-call weight overrides are outside the model.  The page size is
an `Int` so that non-positive requests are representable. -/
structure SearchQuery where
  text : String
  tenant : String
  k : Int
deriving DecidableEq, Repr

/-- Reorder the top `topK` fused results by the order the reranking
service returned, keeping unmentioned top results after them in fused
order; everything below `topK` retains its fused order unchanged. -/
def reorderTop (topK : Nat) (order : List String) (fused : List FusedResult) :
    List FusedResult :=
  let top := fused.take topK
  (order.filterMap (fun cid => top.find? (fun f => f.id == cid)))
    ++ top.filter (fun f => !(order.contains f.id)) ++ fused.drop topK

/-- Modelled from the spec: the rerank stage (spec section 4.4); the
Reranker integration is missing from src/.  The stage is bypassed —
fused order returned as-is, rerank not applied — when the breaker of
the reranking upstream is OPEN, reranking is disabled by configuration
or by the per-query flag, the elapsed query time exceeds the
skip-rerank budget, or the reranking call fails mid-call; only a
successful call reorders the top of the list. -/
def rerankStage (cfg : SearchConfig) (env : RerankEnv) (fused : List FusedResult) :
    List FusedResult × Bool :=
  if env.breakerOpen || !cfg.rerankingEnabled || env.flagDisabled || env.overBudget then
    (fused, false)
  else
    match env.callResult with
    | none => (fused, false)
    | some order => (reorderTop cfg.rerankTopK order fused, true)

/-- Ranked lists of the sources that succeeded, tagged with their
source names. -/
def okLists (sources : List SourceReturn) : List (String × List String) :=
  sources.filterMap (fun s => s.result.map (fun l => (s.name, l)))

/-- Names of the degraded sources, for the diagnostics of the response. -/
def degradedNames (sources : List SourceReturn) : List String :=
  (sources.filter (fun s => s.result.isNone)).map SourceReturn.name

/-- Modelled from the spec: QueryOrchestrator.search (spec sections
4.1 and 7); the implementation is missing from src/.  The requested
page size is validated first — a query whose `k` is not a positive
integer at most the configured maximum `maxK` is rejected with
InvalidQuery before any upstream is involved.  The per-source returns
and the rerank conditions are supplied as `sources` and `renv`; when
every source is degraded the query fails with UpstreamUnavailable,
otherwise the successful lists are fused by the merger, the rerank
stage runs, and the page is truncated to `k`.  The freshness fallback
stage is outside the model. -/
def search (cfg : SearchConfig) (maxK : Nat) (q : SearchQuery)
    (weights : List (String × ℚ)) (sources : List SourceReturn) (renv : RerankEnv) :
    Except SearchError SearchResponse :=
  if 0 < q.k ∧ q.k ≤ (maxK : Int) then
    if (okLists sources).isEmpty then
      Except.error SearchError.UpstreamUnavailable
    else
      let fused := merge (okLists sources) weights cfg.rrfOffsetConstant
      let rr := rerankStage cfg renv fused
      Except.ok { results := rr.1.take q.k.toNat,
                  degradedSources := degradedNames sources,
                  rerankApplied := rr.2 }
  else
    Except.error SearchError.InvalidQuery

section Theorems

attribute [local semireducible] Rat.add Rat.mul Rat.inv Rat.sub

/-- C7: the engine configuration recognises exactly the named options
with the stated defaults, each default being the value used when the
option is not supplied. -/
theorem searchConfig_defaults :
    ({} : SearchConfig).vectorWeight = 6/10 ∧
    ({} : SearchConfig).textWeight = 4/10 ∧
    ({} : SearchConfig).directLookupWeight = 2/10 ∧
    ({} : SearchConfig).k = 20 ∧
    ({} : SearchConfig).fanoutMultiplier = 5 ∧
    ({} : SearchConfig).minCandidatePool = 100 ∧
    ({} : SearchConfig).rrfOffsetConstant = 60 ∧
    ({} : SearchConfig).freshnessThresholdSeconds = 60 ∧
    ({} : SearchConfig).rerankTopK = 20 ∧
    ({} : SearchConfig).rerankingEnabled = true ∧
    ({} : SearchConfig).breakerFailureThreshold = 5 ∧
    ({} : SearchConfig).breakerOpenTimeoutSeconds = 60 ∧
    ({} : SearchConfig).breakerResetTimeoutSeconds = 30 ∧
    ({} : SearchConfig).minRelevanceScore = 7/10 :=
  ⟨rfl, rfl, rfl, rfl, rfl, rfl, rfl, rfl, rfl, rfl, rfl, rfl, rfl, rfl⟩

/-- C9: whenever the DatabaseManager is not connected (isConnected
false or db null), getDatabase and getCollection throw an error
stating the database is not connected, and neither call mutates the
manager state. -/
theorem getDatabase_getCollection_reject_when_disconnected :
    ∀ (s : DBState) (name : String), s.isConnected = false ∨ s.db = none →
      DatabaseManager.getDatabase s =
        (Except.error "Database not connected. Call connect() first.", s) ∧
      DatabaseManager.getCollection s name =
        (Except.error "Database not connected. Call connect() first.", s) := by
  intro s name h
  have hmain : DatabaseManager.getDatabase s =
      (Except.error "Database not connected. Call connect() first.", s) := by
    unfold DatabaseManager.getDatabase
    rcases h with h | h
    · rw [h]
    · cases hC : s.isConnected
      · rfl
      · rw [h]
  refine ⟨hmain, ?_⟩
  unfold DatabaseManager.getCollection
  rw [hmain]

/-- Witness for C9 at the freshly constructed manager state. -/
theorem getDatabase_getCollection_reject_when_disconnected_witness :
    DatabaseManager.getDatabase DBState.init =
      (Except.error "Database not connected. Call connect() first.", DBState.init) ∧
    DatabaseManager.getCollection DBState.init "users" =
      (Except.error "Database not connected. Call connect() first.", DBState.init) :=
  getDatabase_getCollection_reject_when_disconnected DBState.init "users" (Or.inl rfl)

/-- C10: once the manager is connected, connect() returns the existing
database handle, leaves the whole manager state unchanged, and does
not initiate a new connection attempt — its result does not depend on
the supplied attempt outcome. -/
theorem connect_idempotent_when_connected :
    ∀ (s : DBState) (attempt : Except String String), s.isConnected = true →
      DatabaseManager.connect s attempt = (ConnectOutcome.resolved s.db, s) := by
  intro s attempt h
  unfold DatabaseManager.connect
  rw [h]
  rfl

/-- Witness for C10 at a concrete connected state, with a failing
attempt outcome that is never consulted. -/
theorem connect_idempotent_when_connected_witness :
    DatabaseManager.connect
        { client := some "client", db := some "ai_audio_kb", isConnected := true,
          isConnecting := false, reconnectAttempts := 0, maxReconnectAttempts := 5,
          reconnectDelay := 5000 }
        (Except.error "boom") =
      (ConnectOutcome.resolved (some "ai_audio_kb"),
        { client := some "client", db := some "ai_audio_kb", isConnected := true,
          isConnecting := false, reconnectAttempts := 0, maxReconnectAttempts := 5,
          reconnectDelay := 5000 }) :=
  connect_idempotent_when_connected _ (Except.error "boom") rfl

/-- C2: the per-upstream circuit breaker satisfies exactly the stated
step relation — CLOSED trips to OPEN once consecutive failures reach
the threshold and otherwise stays CLOSED, while OPEN no call is
attempted before the reset timeout and the first call after it runs in
HALF_OPEN, a HALF_OPEN success returns to CLOSED, a HALF_OPEN failure
returns to OPEN restarting the reset timer, and a CLOSED success
resets the failure counter. -/
theorem breaker_step_relation :
    ∀ (s : BreakerState) (success : Bool) (now : Nat),
      (s.phase = BreakerPhase.CLOSED → success = false →
        s.failureThreshold ≤ s.consecutiveFailures + 1 →
        (breakerStep s success now).2.phase = BreakerPhase.OPEN ∧
        (breakerStep s success now).2.openedAt = now) ∧
      (s.phase = BreakerPhase.CLOSED → success = false →
        s.consecutiveFailures + 1 < s.failureThreshold →
        (breakerStep s success now).2.phase = BreakerPhase.CLOSED ∧
        (breakerStep s success now).2.consecutiveFailures = s.consecutiveFailures + 1) ∧
      (s.phase = BreakerPhase.CLOSED → success = true →
        (breakerStep s success now).2.phase = BreakerPhase.CLOSED ∧
        (breakerStep s success now).2.consecutiveFailures = 0) ∧
      (s.phase = BreakerPhase.OPEN → now < s.openedAt + s.resetTimeout →
        breakerStep s success now = (false, s)) ∧
      (s.phase = BreakerPhase.OPEN → s.openedAt + s.resetTimeout ≤ now →
        breakerStep s success now =
          (true, recordOutcome { s with phase := BreakerPhase.HALF_OPEN } success now)) ∧
      (s.phase = BreakerPhase.HALF_OPEN → success = true →
        (breakerStep s success now).2.phase = BreakerPhase.CLOSED ∧
        (breakerStep s success now).2.consecutiveFailures = 0) ∧
      (s.phase = BreakerPhase.HALF_OPEN → success = false →
        (breakerStep s success now).2.phase = BreakerPhase.OPEN ∧
        (breakerStep s success now).2.openedAt = now) := by
  intro s success now
  refine ⟨?_, ?_, ?_, ?_, ?_, ?_, ?_⟩
  · intro hp hs hth
    simp [breakerStep, allowRequest, recordOutcome, hp, hs, if_pos hth]
  · intro hp hs hth
    simp [breakerStep, allowRequest, recordOutcome, hp, hs, if_neg (by omega : ¬ s.failureThreshold ≤ s.consecutiveFailures + 1)]
  · intro hp hs
    simp [breakerStep, allowRequest, recordOutcome, hp, hs]
  · intro hp ht
    simp [breakerStep, allowRequest, hp, if_neg (by omega : ¬ s.openedAt + s.resetTimeout ≤ now)]
  · intro hp ht
    simp [breakerStep, allowRequest, hp, if_pos ht]
  · intro hp hs
    simp [breakerStep, allowRequest, recordOutcome, hp, hs]
  · intro hp hs
    simp [breakerStep, allowRequest, recordOutcome, hp, hs]

/-- Witness for C2: a CLOSED breaker with threshold 5 and four prior
consecutive failures trips to OPEN on the next failure at time 10. -/
theorem breaker_step_relation_witness :
    (breakerStep ⟨BreakerPhase.CLOSED, 4, 0, 5, 30⟩ false 10).2.phase = BreakerPhase.OPEN ∧
    (breakerStep ⟨BreakerPhase.CLOSED, 4, 0, 5, 30⟩ false 10).2.openedAt = 10 :=
  (breaker_step_relation ⟨BreakerPhase.CLOSED, 4, 0, 5, 30⟩ false 10).1 rfl rfl (by decide)

/-- C8: the configuration parsing helpers return the supplied default
when the environment value is undefined or does not parse as a number,
the parsed number otherwise, and never return NaN (`none`). -/
theorem parse_helpers_default_never_nan :
    ∀ (v : Option String) (dI : Int) (dQ : ℚ),
      (v = none → parseIntCfg v dI = some dI ∧ parseFloatCfg v dQ = some dQ) ∧
      (∀ s, v = some s → jsParseInt s = none → parseIntCfg v dI = some dI) ∧
      (∀ s n, v = some s → jsParseInt s = some n → parseIntCfg v dI = some n) ∧
      (∀ s, v = some s → jsParseFloat s = none → parseFloatCfg v dQ = some dQ) ∧
      (∀ s q, v = some s → jsParseFloat s = some q → parseFloatCfg v dQ = some q) ∧
      (parseIntCfg v dI).isSome = true ∧
      (parseFloatCfg v dQ).isSome = true := by
  intro v dI dQ
  refine ⟨?_, ?_, ?_, ?_, ?_, ?_, ?_⟩
  · intro h; subst h; exact ⟨rfl, rfl⟩
  · intro s h hp; subst h; simp [parseIntCfg, hp]
  · intro s n h hp; subst h; simp [parseIntCfg, hp]
  · intro s h hp; subst h; simp [parseFloatCfg, hp]
  · intro s q h hp; subst h; simp [parseFloatCfg, hp]
  · cases v with
    | none => rfl
    | some s => cases hp : jsParseInt s <;> simp [parseIntCfg, hp]
  · cases v with
    | none => rfl
    | some s => cases hp : jsParseFloat s <;> simp [parseFloatCfg, hp]

/-- Witness for C8: an unparsable value falls back to the default 20,
so the parsed configuration entry is a number, not NaN. -/
theorem parse_helpers_default_never_nan_witness :
    jsParseInt "abc" = none ∧ parseIntCfg (some "abc") 20 = some 20 :=
  ⟨by decide,
    (parse_helpers_default_never_nan (some "abc") 20 (7/10)).2.1 "abc" rfl (by decide)⟩

/-- Helper: the successful-source list is empty exactly when every
configured source is degraded. -/
lemma okLists_isEmpty_iff (sources : List SourceReturn) :
    (okLists sources).isEmpty = true ↔ ∀ s ∈ sources, s.result = none := by
  rw [List.isEmpty_iff]
  unfold okLists
  rw [List.filterMap_eq_nil_iff]
  constructor
  · intro h s hs
    have hn := h s hs
    cases hr : s.result with
    | none => rfl
    | some l => rw [hr] at hn; simp at hn
  · intro h s hs
    rw [h s hs]
    rfl

/-- Helper: with a valid page size and at least one successful source,
the orchestrator returns the fused, reranked, truncated page. -/
lemma search_eq_ok (cfg : SearchConfig) (maxK : Nat) (q : SearchQuery)
    (weights : List (String × ℚ)) (sources : List SourceReturn) (renv : RerankEnv)
    (hk : 0 < q.k ∧ q.k ≤ (maxK : Int)) (hex : ∃ s ∈ sources, s.result ≠ none) :
    search cfg maxK q weights sources renv =
      Except.ok
        { results := (rerankStage cfg renv
            (merge (okLists sources) weights cfg.rrfOffsetConstant)).1.take q.k.toNat,
          degradedSources := degradedNames sources,
          rerankApplied := (rerankStage cfg renv
            (merge (okLists sources) weights cfg.rrfOffsetConstant)).2 } := by
  obtain ⟨s0, hs0, hr0⟩ := hex
  have he : ¬ (okLists sources).isEmpty = true := by
    intro he
    exact hr0 ((okLists_isEmpty_iff sources).mp he s0 hs0)
  unfold search
  rw [if_pos hk, if_neg he]

/-- C6: search rejects a query immediately with InvalidQuery, without
calling any upstream, exactly when the requested page size is not a
positive integer at most the configured maximum. -/
theorem search_rejects_invalid_k :
    ∀ (cfg : SearchConfig) (maxK : Nat) (q : SearchQuery) (weights : List (String × ℚ))
      (sources : List SourceReturn) (renv : RerankEnv),
      (search cfg maxK q weights sources renv = Except.error SearchError.InvalidQuery ↔
        ¬(0 < q.k ∧ q.k ≤ (maxK : Int))) ∧
      (¬(0 < q.k ∧ q.k ≤ (maxK : Int)) →
        ∀ (sources2 : List SourceReturn) (renv2 : RerankEnv),
          search cfg maxK q weights sources2 renv2 = Except.error SearchError.InvalidQuery) := by
  intro cfg maxK q weights sources renv
  constructor
  · constructor
    · intro h hk
      unfold search at h
      rw [if_pos hk] at h
      by_cases he : (okLists sources).isEmpty = true
      · rw [if_pos he] at h
        simp at h
      · rw [if_neg he] at h
        simp at h
    · intro hk
      unfold search
      rw [if_neg hk]
  · intro hk sources2 renv2
    unfold search
    rw [if_neg hk]

/-- Witness for C6: a request for zero results is rejected with
InvalidQuery. -/
theorem search_rejects_invalid_k_witness :
    search {} 100 ⟨"hello", "t1", 0⟩ [] [] ⟨false, false, false, none⟩ =
      Except.error SearchError.InvalidQuery :=
  (search_rejects_invalid_k {} 100 ⟨"hello", "t1", 0⟩ [] [] ⟨false, false, false, none⟩).2
    (by decide) [] ⟨false, false, false, none⟩

/-- C3: with a valid page size, search fails with UpstreamUnavailable
exactly when every configured source is degraded; when at least one
source succeeds the query completes, the page is built from the
successful sources, and every degraded source is named in
degradedSources. -/
theorem search_all_degraded_iff_unavailable :
    ∀ (cfg : SearchConfig) (maxK : Nat) (q : SearchQuery) (weights : List (String × ℚ))
      (sources : List SourceReturn) (renv : RerankEnv),
      0 < q.k → q.k ≤ (maxK : Int) →
      (search cfg maxK q weights sources renv = Except.error SearchError.UpstreamUnavailable ↔
        ∀ s ∈ sources, s.result = none) ∧
      ((∃ s ∈ sources, s.result ≠ none) →
        search cfg maxK q weights sources renv =
          Except.ok
            { results := (rerankStage cfg renv
                (merge (okLists sources) weights cfg.rrfOffsetConstant)).1.take q.k.toNat,
              degradedSources := degradedNames sources,
              rerankApplied := (rerankStage cfg renv
                (merge (okLists sources) weights cfg.rrfOffsetConstant)).2 }) := by
  intro cfg maxK q weights sources renv hk1 hk2
  have hkv : 0 < q.k ∧ q.k ≤ (maxK : Int) := ⟨hk1, hk2⟩
  constructor
  · constructor
    · intro h
      unfold search at h
      rw [if_pos hkv] at h
      by_cases he : (okLists sources).isEmpty = true
      · exact (okLists_isEmpty_iff sources).mp he
      · rw [if_neg he] at h
        simp at h
    · intro h
      unfold search
      rw [if_pos hkv, if_pos ((okLists_isEmpty_iff sources).mpr h)]
  · exact search_eq_ok cfg maxK q weights sources renv hkv

/-- Witness for C3, the degradation scenario of the spec: the vector
source is degraded, the text source returns [B, A, D], and the query
completes with the text-only ranking and degradedSources = [vector]. -/
theorem search_all_degraded_iff_unavailable_witness :
    search {} 100 ⟨"q", "t1", 2⟩ [("vector", 6/10), ("text", 4/10)]
        [⟨"vector", none⟩, ⟨"text", some ["B", "A", "D"]⟩] ⟨false, false, false, none⟩ =
      Except.ok
        { results := [⟨"B", 2/305, ["text"]⟩, ⟨"A", 1/155, ["text"]⟩],
          degradedSources := ["vector"],
          rerankApplied := false } :=
  ((search_all_degraded_iff_unavailable {} 100 ⟨"q", "t1", 2⟩ [("vector", 6/10), ("text", 4/10)]
      [⟨"vector", none⟩, ⟨"text", some ["B", "A", "D"]⟩] ⟨false, false, false, none⟩
      (by decide) (by decide)).2
    ⟨⟨"text", some ["B", "A", "D"]⟩, by decide, by decide⟩).trans
    (congrArg Except.ok (by decide))

/-- C5: any rerank bypass condition — reranker breaker OPEN, per-query
flag disabling reranking, elapsed time over the skip-rerank budget, or
failure mid-call — leaves the fused order unchanged and never fails
the query. -/
theorem rerank_bypass_never_fails :
    ∀ (cfg : SearchConfig) (maxK : Nat) (q : SearchQuery) (weights : List (String × ℚ))
      (sources : List SourceReturn) (renv : RerankEnv),
      renv.breakerOpen = true ∨ renv.flagDisabled = true ∨ renv.overBudget = true ∨
        renv.callResult = none →
      (∀ fused, rerankStage cfg renv fused = (fused, false)) ∧
      (0 < q.k → q.k ≤ (maxK : Int) → (∃ s ∈ sources, s.result ≠ none) →
        search cfg maxK q weights sources renv =
          Except.ok
            { results := (merge (okLists sources) weights cfg.rrfOffsetConstant).take q.k.toNat,
              degradedSources := degradedNames sources,
              rerankApplied := false }) := by
  intro cfg maxK q weights sources renv h
  have hby : ∀ fused, rerankStage cfg renv fused = (fused, false) := by
    intro fused
    unfold rerankStage
    rcases h with h | h | h | h
    · simp [h]
    · simp [h]
    · simp [h]
    · by_cases hc : (renv.breakerOpen || !cfg.rerankingEnabled || renv.flagDisabled
          || renv.overBudget) = true
      · rw [if_pos hc]
      · rw [if_neg hc, h]
  refine ⟨hby, ?_⟩
  intro hk1 hk2 hex
  rw [search_eq_ok cfg maxK q weights sources renv ⟨hk1, hk2⟩ hex,
    hby (merge (okLists sources) weights cfg.rrfOffsetConstant)]

/-- Witness for C5: with the reranker breaker OPEN the query still
completes and returns the fused order unchanged. -/
theorem rerank_bypass_never_fails_witness :
    search {} 100 ⟨"q", "t1", 2⟩ [("vector", 6/10), ("text", 4/10)]
        [⟨"text", some ["B", "A", "D"]⟩] ⟨true, false, false, some ["D"]⟩ =
      Except.ok
        { results := [⟨"B", 2/305, ["text"]⟩, ⟨"A", 1/155, ["text"]⟩],
          degradedSources := [],
          rerankApplied := false } :=
  ((rerank_bypass_never_fails {} 100 ⟨"q", "t1", 2⟩ [("vector", 6/10), ("text", 4/10)]
      [⟨"text", some ["B", "A", "D"]⟩] ⟨true, false, false, some ["D"]⟩ (Or.inl rfl)).2
    (by decide) (by decide) ⟨⟨"text", some ["B", "A", "D"]⟩, by decide, by decide⟩).trans
    (congrArg Except.ok (by decide))

/-- C1: every fused result of merge carries as fusedScore the sum,
over the sources in which the candidate appears, of weight divided by
its 1-based rank there plus the offset constant (default 60); a
candidate present in exactly one source is scored by that
contribution alone. -/
theorem merge_rrf_score :
    ∀ (lists : List (String × List String)) (weights : List (String × ℚ)) (offset : Nat),
      (∀ f ∈ merge lists weights offset,
        f.fusedScore =
          ((occurrences lists f.id).map
            (fun sr => lookupWeight weights sr.1 / ((sr.2 : ℚ) + (offset : ℚ)))).sum ∧
        ∀ src r, occurrences lists f.id = [(src, r)] →
          f.fusedScore = lookupWeight weights src / ((r : ℚ) + (offset : ℚ))) ∧
      ({} : SearchConfig).rrfOffsetConstant = 60 := by
  intro lists weights offset
  refine ⟨?_, rfl⟩
  intro f hf
  rw [merge, List.mem_insertionSort] at hf
  obtain ⟨cid, hcid, rfl⟩ := List.mem_map.mp hf
  constructor
  · rfl
  · intro src r hocc
    simp only [mkFused] at hocc ⊢
    unfold fusedScoreOf
    rw [hocc]
    simp [rrfContribution]

/-- Witness for C1: in the two-source scenario the candidate A, ranked
1 by the vector source and 2 by the text source, is fused with score
0.6/61 plus 0.4/62. -/
theorem merge_rrf_score_witness :
    mkFused [("vector", ["A", "B", "C"]), ("text", ["B", "A", "D"])]
        [("vector", 6/10), ("text", 4/10)] 60 "A" ∈
      merge [("vector", ["A", "B", "C"]), ("text", ["B", "A", "D"])]
        [("vector", 6/10), ("text", 4/10)] 60 ∧
    (mkFused [("vector", ["A", "B", "C"]), ("text", ["B", "A", "D"])]
        [("vector", 6/10), ("text", 4/10)] 60 "A").fusedScore =
      (6/10 : ℚ) / 61 + (4/10 : ℚ) / 62 :=
  ⟨by decide,
    (((merge_rrf_score [("vector", ["A", "B", "C"]), ("text", ["B", "A", "D"])]
          [("vector", 6/10), ("text", 4/10)] 60).1 _ (by decide)).1).trans (by decide)⟩

/-- C4: fused results with equal fusedScore are ordered with the one
present in more contributing sources first, a further tie going to the
lexicographically smaller identifier, and merge on identical inputs
returns identical output orderings. -/
theorem merge_tiebreak_deterministic :
    ∀ (lists : List (String × List String)) (weights : List (String × ℚ)) (offset : Nat),
      List.Pairwise
        (fun a b => a.fusedScore = b.fusedScore →
          nSources b ≤ nSources a ∧ (nSources a = nSources b → a.id ≤ b.id))
        (merge lists weights offset) ∧
      merge lists weights offset = merge lists weights offset := by
  intro lists weights offset
  refine ⟨?_, rfl⟩
  have hs := List.sorted_insertionSort fusedBefore
    ((allIds lists).map (mkFused lists weights offset))
  rw [merge]
  refine List.Pairwise.imp ?_ hs
  intro a b hab
  intro heq
  rcases hab with hlt | ⟨hE, hT⟩
  · exact absurd hlt (by rw [heq]; exact lt_irrefl _)
  · rcases hT with hN | ⟨hN, hI⟩
    · exact ⟨le_of_lt hN, fun hEq => absurd hN (by omega)⟩
    · exact ⟨le_of_eq hN.symm, fun _ => hI⟩

/-- Witness for C4 at the two-source scenario input. -/
theorem merge_tiebreak_deterministic_witness :
    List.Pairwise
        (fun a b => a.fusedScore = b.fusedScore →
          nSources b ≤ nSources a ∧ (nSources a = nSources b → a.id ≤ b.id))
        (merge [("vector", ["A", "B", "C"]), ("text", ["B", "A", "D"])]
          [("vector", 6/10), ("text", 4/10)] 60) ∧
      merge [("vector", ["A", "B", "C"]), ("text", ["B", "A", "D"])]
          [("vector", 6/10), ("text", 4/10)] 60 =
        merge [("vector", ["A", "B", "C"]), ("text", ["B", "A", "D"])]
          [("vector", 6/10), ("text", 4/10)] 60 :=
  merge_tiebreak_deterministic [("vector", ["A", "B", "C"]), ("text", ["B", "A", "D"])]
    [("vector", 6/10), ("text", 4/10)] 60

end Theorems
